import Mathlib

/-!
Shallow embedding of the `unsafe_get` crate (`src/src/lib.rs`).

The crate exports two declarative macros:

* `get!` (lib.rs lines 117-130): expands to
  `if let $constructor { $field, .. } = $value { $field } else { panic!(...) }`.
* `must_let!` (lib.rs lines 194-234): three rules — a rename-form struct rule
  (line 202), a bare/rest-form struct rule (line 213) and a tuple rule
  (line 224) — each expanding to a `let` over a `match` on `$value`, with the
  mismatch arm `panic!("...: expected enum constructor: {}, got {:?}", stringify!(ctor), $value)`.

Because `$value` is substituted textually, it is evaluated once as the match
scrutinee and, on the mismatch arm only, a second time inside the panic
formatter.  We model a value expression as a state-passing function
`e : σ → SumValue × σ`, so evaluation counts are visible as state transitions.

Runtime sum-type values carry a canonical constructor path; a pattern path
matches when it is a nonempty suffix of the canonical path (modelling Rust
name resolution of an in-scope path such as `Some`, `Option::Some`,
`std::option::Option::Some`).  `stringify!` of a path fragment renders the
segments joined by `::` with no internal whitespace; `{:?}` on a derived enum
renders `Variant { field: value, .. }` / `Variant(value, ..)` / `Variant`.
-/

/-- Runtime field values (the field types used in the crate's tests and
doctests: integers and booleans). -/
inductive RVal where
  | vInt : Int → RVal
  | vBool : Bool → RVal
deriving DecidableEq, Repr

/-- The `{:?}` (derived `Debug`) rendering of a field value. -/
def RVal.debug : RVal → String
  | RVal.vInt n => toString n
  | RVal.vBool b => toString b

/-- A sum-type (enum) value: a canonical constructor path plus either named
fields (struct variant) or positional fields (tuple variant). -/
inductive SumValue where
  | structVal (path : List String) (fields : List (String × RVal))
  | tupleVal (path : List String) (fields : List RVal)
deriving DecidableEq, Repr

/-- The canonical constructor path of a value, fixed at construction. -/
def SumValue.ctorPath : SumValue → List String
  | SumValue.structVal p _ => p
  | SumValue.tupleVal p _ => p

/-- Last segment of a path (the variant name used by derived `Debug`). -/
def lastSegment (p : List String) : String :=
  (p.getLast?).getD ""

/-- Derived `Debug` rendering of an enum value: `Variant { f: v, .. }`,
`Variant(v, ..)`, or bare `Variant` for a unit tuple variant. -/
def debugSumValue : SumValue → String
  | SumValue.structVal p fields =>
      lastSegment p ++ " \x7b " ++
        String.intercalate ", " (fields.map (fun fv => fv.1 ++ ": " ++ RVal.debug fv.2)) ++
        " \x7d"
  | SumValue.tupleVal p [] => lastSegment p
  | SumValue.tupleVal p fields =>
      lastSegment p ++ "(" ++ String.intercalate ", " (fields.map RVal.debug) ++ ")"

/-- Look up a named field (first match, as in a struct pattern binding). -/
def lookupField (f : String) : List (String × RVal) → Option RVal
  | [] => none
  | (g, x) :: rest => if g = f then some x else lookupField f rest

/-- Does the written pattern path resolve to the canonical constructor path?
Modelled as nonempty path-segment suffix matching. -/
def pathResolves (pat ctor : List String) : Bool :=
  !pat.isEmpty && (List.drop (ctor.length - pat.length) ctor == pat)

/-- The `stringify!($constructor)` rendering of a written path: segments
joined by `::`, internal whitespace removed. -/
def renderPath (pat : List String) : String :=
  String.intercalate "::" pat

/-- The panic message of `get!` (lib.rs lines 123-127): the format string
`"get!: expected enum constructor: {}, got {:?}"` applied to
`stringify!($constructor)` and the re-evaluated `$value`. -/
def getMsg (pat : List String) (v : SumValue) : String :=
  "get!: expected enum constructor: " ++ renderPath pat ++ ", got " ++ debugSumValue v

/-- The panic message of `must_let!` (lib.rs lines 205-209, 216-220,
227-231): the format string
`"must_let!: expected enum constructor: {}, got {:?}"` applied to
`stringify!($constructor)` and the re-evaluated `$value`. -/
def mustLetMsg (pat : List String) (v : SumValue) : String :=
  "must_let!: expected enum constructor: " ++ renderPath pat ++ ", got " ++ debugSumValue v

/-- The value produced by the taken `if let` arm of `get!` (lib.rs lines
120-121): the named field of the already-evaluated value.  The `"ill-typed"`
outcomes are unreachable for invocations that typecheck in Rust (the field
is statically known to exist on the named struct variant). -/
def getHit (field : String) : SumValue → Except String RVal
  | SumValue.structVal _ fields =>
      match lookupField field fields with
      | some x => Except.ok x
      | none => Except.error "ill-typed"
  | SumValue.tupleVal _ _ => Except.error "ill-typed"

/-- Model of the expansion of `get!($value, $constructor, $field)`
(lib.rs lines 118-129): evaluate `$value`; if the tag matches, yield the
field from that single evaluation; otherwise evaluate `$value` a second time
inside the panic formatter and abort with the formatted message.
`Except.error` models the panic. -/
def getRun {σ : Type} (e : σ → SumValue × σ) (pat : List String) (field : String)
    (s0 : σ) : Except String RVal × σ :=
  let p := e s0
  if pathResolves pat p.1.ctorPath then (getHit field p.1, p.2)
  else
    let q := e p.2
    (Except.error (getMsg pat q.1), q.2)

/-- One entry of a `must_let!` struct field-pattern list, after macro
dispatch: a bare field name, a renamed field (`field: binding`), or the rest
wildcard `..` (which `@as_binding`/`@as_value`, lib.rs lines 196-200, turn
into `_` / `()`, so it produces no binding). -/
inductive FieldPat where
  | bare (name : String)
  | renamed (field : String) (binding : String)
  | rest
deriving DecidableEq, Repr

/-- The local bindings produced by matching a struct field-pattern list
against the matched variant's named fields: one `(localName, value)` pair per
bare or renamed entry, nothing for `..`.  `none` models a statically
ill-typed invocation (a mentioned field absent from the variant). -/
def bindFields (fields : List (String × RVal)) : List FieldPat → Option (List (String × RVal))
  | [] => some []
  | FieldPat.bare f :: rest => do
      let x ← lookupField f fields
      let r ← bindFields fields rest
      pure ((f, x) :: r)
  | FieldPat.renamed f b :: rest => do
      let x ← lookupField f fields
      let r ← bindFields fields rest
      pure ((b, x) :: r)
  | FieldPat.rest :: rest => bindFields fields rest

/-- The bindings produced by the taken match arm of the struct rules of
`must_let!` (lib.rs lines 203-204, 214-215), from the already-evaluated
value.  The `"ill-typed"` outcomes are unreachable for invocations that
typecheck in Rust. -/
def mustLetStructHit (fps : List FieldPat) :
    SumValue → Except String (List (String × RVal))
  | SumValue.structVal _ fields =>
      match bindFields fields fps with
      | some bs => Except.ok bs
      | none => Except.error "ill-typed"
  | SumValue.tupleVal _ _ => Except.error "ill-typed"

/-- Model of the expansion of the struct rules of `must_let!` (lib.rs lines
202-211 and 213-222): evaluate `$value` once as the match scrutinee; on tag
match produce the local bindings from that single evaluation; on mismatch
evaluate `$value` a second time inside the panic formatter and abort. -/
def mustLetStructRun {σ : Type} (e : σ → SumValue × σ) (pat : List String)
    (fps : List FieldPat) (s0 : σ) : Except String (List (String × RVal)) × σ :=
  let p := e s0
  if pathResolves pat p.1.ctorPath then (mustLetStructHit fps p.1, p.2)
  else
    let q := e p.2
    (Except.error (mustLetMsg pat q.1), q.2)

/-- The bindings produced by the taken match arm of the tuple rule of
`must_let!` (lib.rs lines 225-226): positional binder names paired with the
tuple variant's fields, left to right. -/
def mustLetTupleHit (names : List String) :
    SumValue → Except String (List (String × RVal))
  | SumValue.tupleVal _ vals =>
      if names.length = vals.length then Except.ok (names.zip vals)
      else Except.error "ill-typed"
  | SumValue.structVal _ _ => Except.error "ill-typed"

/-- Model of the expansion of the tuple rule of `must_let!` (lib.rs lines
224-233): positional binder names are matched against the tuple variant's
fields left to right; mismatch behaves as in the struct rules. -/
def mustLetTupleRun {σ : Type} (e : σ → SumValue × σ) (pat : List String)
    (names : List String) (s0 : σ) : Except String (List (String × RVal)) × σ :=
  let p := e s0
  if pathResolves pat p.1.ctorPath then (mustLetTupleHit names p.1, p.2)
  else
    let q := e p.2
    (Except.error (mustLetMsg pat q.1), q.2)

/-- A pure value expression: evaluating it yields `v` with no side effect. -/
def pureE (v : SumValue) : Unit → SumValue × Unit :=
  fun _ => (v, ())

/-- An instrumented value expression: each evaluation yields `v` and
increments a counter, making the number of evaluations observable. -/
def counting (v : SumValue) : Nat → SumValue × Nat :=
  fun n => (v, n + 1)

/-- The value `Some(n)` of `std::option::Option`, as used by the crate's
tuple-form tests. -/
def someVal (n : Int) : SumValue :=
  SumValue.tupleVal ["std", "option", "Option", "Some"] [RVal.vInt n]

/-- The value `None` of `std::option::Option`. -/
def noneVal : SumValue :=
  SumValue.tupleVal ["std", "option", "Option", "None"] []

/-- A single macro-level token inside the braces of a `must_let!` struct
invocation.  Rust's macro matcher treats `..` as one compound token (it is
matched by a single `$binding:tt`, see `@as_binding ..`, lib.rs line 196). -/
inductive Tok where
  | ident (s : String)
  | colon
  | dotdot
deriving DecidableEq, Repr

/-- A written `must_let!` invocation, with the field-pattern tokens split at
the top-level commas of the `$(...),+` repetitions: braces (struct rules) or
parentheses (tuple rule) around comma-separated entries. -/
inductive MustLetInv where
  | braced (path : List String) (entries : List (List Tok))
  | parend (path : List String) (entries : List (List Tok))
deriving DecidableEq, Repr

/-- The three rewrite rules of `must_let!`, in source order. -/
inductive MustLetRule where
  | renameRule
  | bareRule
  | tupleRule
deriving DecidableEq, Repr

/-- Does an entry match the rename fragment `$field:ident : $binding:ident`
of the rule at lib.rs line 202? -/
def isRenameEntry : List Tok → Bool
  | [Tok.ident _, Tok.colon, Tok.ident _] => true
  | _ => false

/-- Does an entry match the single `$binding:tt` fragment of the rules at
lib.rs lines 213 and 224?  A `tt` consumes exactly one token tree. -/
def isSingleTT : List Tok → Bool
  | [_] => true
  | _ => false

/-- Macro-rule dispatch for `must_let!`: the first rule, in source order,
whose matcher accepts the invocation; `none` models a build-time
"no rules expected this token" error.  The rename rule (line 202) requires
every comma-separated entry to be `ident : ident`; the bare rule (line 213)
and the tuple rule (line 224) require every entry to be one token tree. -/
def mustLetDispatch : MustLetInv → Option MustLetRule
  | MustLetInv.braced _ entries =>
      if !entries.isEmpty && entries.all isRenameEntry then some MustLetRule.renameRule
      else if !entries.isEmpty && entries.all isSingleTT then some MustLetRule.bareRule
      else none
  | MustLetInv.parend _ entries =>
      if !entries.isEmpty && entries.all isSingleTT then some MustLetRule.tupleRule
      else none

/-- Modelled from the spec: the token type consumed by the token-segmentation
helper of the procedural (most advanced) variant, whose source is not under
`src/`.  Tokens are pre-tokenized atoms: identifiers, literals, single
punctuation characters, and bracketed groups treated as opaque single tokens
(not recursed into). -/
inductive GTok where
  | ident (s : String)
  | lit (s : String)
  | punct (c : Char)
  | group (ts : List GTok)

/-- Is this token one of the designated separator characters? -/
def isSep (seps : List Char) : GTok → Bool
  | GTok.punct c => seps.contains c
  | _ => false

/-- Modelled from the spec: the accumulator loop of the token-segmentation
helper.  `current` holds the tokens of the group being built, in reverse. -/
def segmentAux (seps : List Char) : List GTok → List GTok → List (List GTok)
  | current, [] => if current.isEmpty then [] else [current.reverse]
  | current, t :: ts =>
      if isSep seps t then current.reverse :: segmentAux seps [] ts
      else segmentAux seps (t :: current) ts

/-- Modelled from the spec: the token-segmentation helper of the procedural
variant (absent from `src/`).  It splits an ordered token stream into groups
at every top-level occurrence of a separator character, accumulating all
other tokens verbatim; a trailing group with no following separator is still
emitted if non-empty, and an empty trailing remainder after a final separator
is dropped rather than emitted as an empty group. -/
def segmentTokens (seps : List Char) (ts : List GTok) : List (List GTok) :=
  segmentAux seps [] ts

/-- C1: for every sum-type value `v` constructed with constructor `C` whose
field `f` holds value `x`, the extractor `get!(v, C, f)` evaluates to `x`
(from the single evaluation of the value expression). -/
theorem c1_get_extracts_field {σ : Type} (e : σ → SumValue × σ)
    (pat ctor : List String) (fields : List (String × RVal)) (f : String)
    (x : RVal) (s0 s1 : σ)
    (he : e s0 = (SumValue.structVal ctor fields, s1))
    (hres : pathResolves pat ctor = true)
    (hf : lookupField f fields = some x) :
    getRun e pat f s0 = (Except.ok x, s1) := by
  simp [getRun, he, SumValue.ctorPath, hres, getHit, hf]

/-- Witness for C1: the doctest value `ExampleEnum::Foo { field: 42 }`. -/
theorem c1_get_extracts_field_witness :
    getRun (pureE (SumValue.structVal ["ExampleEnum", "Foo"] [("field", RVal.vInt 42)]))
      ["ExampleEnum", "Foo"] "field" () = (Except.ok (RVal.vInt 42), ()) :=
  c1_get_extracts_field (pureE (SumValue.structVal ["ExampleEnum", "Foo"] [("field", RVal.vInt 42)]))
    ["ExampleEnum", "Foo"] ["ExampleEnum", "Foo"] [("field", RVal.vInt 42)] "field"
    (RVal.vInt 42) () () rfl rfl rfl

/-- C2: for every value `v` constructed with constructor `C` with fields
`f1=x1`, `f2=x2`, the bare form `must_let!(C { f1, f2 } = v)` binds local
`f1` to `x1` and `f2` to `x2`, and the value expression is evaluated exactly
once: the resulting state is `s1`, the state after the single evaluation
`e s0 = (v, s1)`, so any observable side effect of the value expression
occurs exactly once, not zero or twice. -/
theorem c2_must_let_bare_binds_once {σ : Type} (e : σ → SumValue × σ)
    (pat ctor : List String) (f1 f2 : String) (x1 x2 : RVal) (s0 s1 : σ)
    (he : e s0 = (SumValue.structVal ctor [(f1, x1), (f2, x2)], s1))
    (hres : pathResolves pat ctor = true)
    (hne : f1 ≠ f2) :
    mustLetStructRun e pat [FieldPat.bare f1, FieldPat.bare f2] s0 =
      (Except.ok [(f1, x1), (f2, x2)], s1) := by
  simp [mustLetStructRun, he, SumValue.ctorPath, hres, mustLetStructHit, bindFields,
    lookupField, hne]

/-- Witness for C2: the test value `Enum::Baz { a: 3, b: 4 }`, with the
counting expression showing exactly one evaluation. -/
theorem c2_must_let_bare_binds_once_witness :
    mustLetStructRun (counting (SumValue.structVal ["Enum", "Baz"] [("a", RVal.vInt 3), ("b", RVal.vInt 4)]))
      ["Enum", "Baz"] [FieldPat.bare "a", FieldPat.bare "b"] 0 =
      (Except.ok [("a", RVal.vInt 3), ("b", RVal.vInt 4)], 1) :=
  c2_must_let_bare_binds_once
    (counting (SumValue.structVal ["Enum", "Baz"] [("a", RVal.vInt 3), ("b", RVal.vInt 4)]))
    ["Enum", "Baz"] ["Enum", "Baz"] "a" "b" (RVal.vInt 3) (RVal.vInt 4) 0 1
    rfl rfl (by decide)

/-- C3: for every value constructed with a constructor different from the
one named in the invocation, both `get!` and `must_let!` abort
unconditionally (modelled by `Except.error`, with no `Except.ok` return
path) with a message of the exact form
`"<macro-name>: expected enum constructor: <constructor-path>, got <debug-rendering>"`,
where the constructor path is `stringify!`'s whitespace-free `::`-joined
rendering and the value is rendered with the derived structural `Debug`
formatting. -/
theorem c3_mismatch_abort_message (v : SumValue) (pat : List String)
    (f : String) (fps : List FieldPat)
    (hmis : pathResolves pat v.ctorPath = false) :
    getRun (pureE v) pat f () =
      (Except.error ("get!: expected enum constructor: " ++ renderPath pat ++ ", got " ++ debugSumValue v), ())
    ∧ mustLetStructRun (pureE v) pat fps () =
      (Except.error ("must_let!: expected enum constructor: " ++ renderPath pat ++ ", got " ++ debugSumValue v), ()) := by
  constructor <;> simp [getRun, mustLetStructRun, pureE, hmis, getMsg, mustLetMsg]

/-- Witness for C3: the test value `Enum::Bar { bar: true }` against pattern
`Enum::Foo`, producing the exact message strings asserted by the crate's
`#[should_panic(expected = ...)]` tests. -/
theorem c3_mismatch_abort_message_witness :
    getRun (pureE (SumValue.structVal ["Enum", "Bar"] [("bar", RVal.vBool true)]))
      ["Enum", "Foo"] "foo" () =
      (Except.error "get!: expected enum constructor: Enum::Foo, got Bar { bar: true }", ())
    ∧ mustLetStructRun (pureE (SumValue.structVal ["Enum", "Bar"] [("bar", RVal.vBool true)]))
      ["Enum", "Foo"] [FieldPat.bare "foo"] () =
      (Except.error "must_let!: expected enum constructor: Enum::Foo, got Bar { bar: true }", ()) :=
  c3_mismatch_abort_message (SumValue.structVal ["Enum", "Bar"] [("bar", RVal.vBool true)])
    ["Enum", "Foo"] "foo" [FieldPat.bare "foo"] rfl

/-- C4: on the mismatch path both macros substitute the value expression a
second time inside the panic formatter, so an instrumented value expression
is evaluated twice before the abort (final counter 2), in contrast to
exactly once (final counter 1) on the matching path. -/
theorem c4_mismatch_double_evaluation (v : SumValue) (pat : List String)
    (f : String) (fps : List FieldPat) :
    (pathResolves pat v.ctorPath = false →
      (getRun (counting v) pat f 0).2 = 2 ∧ (mustLetStructRun (counting v) pat fps 0).2 = 2)
    ∧ (pathResolves pat v.ctorPath = true →
      (getRun (counting v) pat f 0).2 = 1 ∧ (mustLetStructRun (counting v) pat fps 0).2 = 1) := by
  constructor <;> intro h <;> constructor <;> simp [getRun, mustLetStructRun, counting, h]

/-- Witness for C4: a mismatching and a matching invocation on concrete test
values, with evaluation counts 2 and 1 respectively. -/
theorem c4_mismatch_double_evaluation_witness :
    ((getRun (counting (SumValue.structVal ["Enum", "Bar"] [("bar", RVal.vBool true)]))
        ["Enum", "Foo"] "foo" 0).2 = 2
      ∧ (mustLetStructRun (counting (SumValue.structVal ["Enum", "Bar"] [("bar", RVal.vBool true)]))
        ["Enum", "Foo"] [FieldPat.bare "foo"] 0).2 = 2)
    ∧ ((getRun (counting (SumValue.structVal ["Enum", "Foo"] [("foo", RVal.vInt 42)]))
        ["Enum", "Foo"] "foo" 0).2 = 1
      ∧ (mustLetStructRun (counting (SumValue.structVal ["Enum", "Foo"] [("foo", RVal.vInt 42)]))
        ["Enum", "Foo"] [FieldPat.bare "foo"] 0).2 = 1) :=
  ⟨(c4_mismatch_double_evaluation (SumValue.structVal ["Enum", "Bar"] [("bar", RVal.vBool true)])
      ["Enum", "Foo"] "foo" [FieldPat.bare "foo"]).1 rfl,
   (c4_mismatch_double_evaluation (SumValue.structVal ["Enum", "Foo"] [("foo", RVal.vInt 42)])
      ["Enum", "Foo"] "foo" [FieldPat.bare "foo"]).2 rfl⟩

/-- C5: rename-form round-trip — for every value constructed with
constructor `C` with fields `f1=x1`, `f2=x2`, the rename form
`must_let!(C { f1: a, f2: b } = v)` binds `a` to `x1` and `b` to `x2`,
the identical values the bare form binds to `f1` and `f2`, only under
different local names. -/
theorem c5_rename_round_trip {σ : Type} (e : σ → SumValue × σ)
    (pat ctor : List String) (f1 f2 a b : String) (x1 x2 : RVal) (s0 s1 : σ)
    (he : e s0 = (SumValue.structVal ctor [(f1, x1), (f2, x2)], s1))
    (hres : pathResolves pat ctor = true)
    (hne : f1 ≠ f2) :
    mustLetStructRun e pat [FieldPat.renamed f1 a, FieldPat.renamed f2 b] s0 =
      (Except.ok [(a, x1), (b, x2)], s1)
    ∧ mustLetStructRun e pat [FieldPat.bare f1, FieldPat.bare f2] s0 =
      (Except.ok [(f1, x1), (f2, x2)], s1) := by
  constructor <;>
    simp [mustLetStructRun, he, SumValue.ctorPath, hres, mustLetStructHit, bindFields,
      lookupField, hne]

/-- Witness for C5: the test `Enum::Baz { a: value_a, b: value_b } = Enum::Baz { a: 3, b: 4 }`. -/
theorem c5_rename_round_trip_witness :
    mustLetStructRun (pureE (SumValue.structVal ["Enum", "Baz"] [("a", RVal.vInt 3), ("b", RVal.vInt 4)]))
      ["Enum", "Baz"] [FieldPat.renamed "a" "value_a", FieldPat.renamed "b" "value_b"] () =
      (Except.ok [("value_a", RVal.vInt 3), ("value_b", RVal.vInt 4)], ())
    ∧ mustLetStructRun (pureE (SumValue.structVal ["Enum", "Baz"] [("a", RVal.vInt 3), ("b", RVal.vInt 4)]))
      ["Enum", "Baz"] [FieldPat.bare "a", FieldPat.bare "b"] () =
      (Except.ok [("a", RVal.vInt 3), ("b", RVal.vInt 4)], ()) :=
  c5_rename_round_trip (pureE (SumValue.structVal ["Enum", "Baz"] [("a", RVal.vInt 3), ("b", RVal.vInt 4)]))
    ["Enum", "Baz"] ["Enum", "Baz"] "a" "b" "value_a" "value_b" (RVal.vInt 3) (RVal.vInt 4) () ()
    rfl rfl (by decide)

/-- C6: rest-wildcard form — for every value constructed with constructor
`C` whose field `f1` holds `x1` among arbitrary other fields,
`must_let!(C { f1, .. } = v)` succeeds despite the unmentioned fields and
produces exactly the one binding `f1 -> x1`, introducing no binding for any
unmentioned field. -/
theorem c6_rest_wildcard_binds_only_mentioned {σ : Type} (e : σ → SumValue × σ)
    (pat ctor : List String) (fields : List (String × RVal)) (f1 : String)
    (x1 : RVal) (s0 s1 : σ)
    (he : e s0 = (SumValue.structVal ctor fields, s1))
    (hres : pathResolves pat ctor = true)
    (hf : lookupField f1 fields = some x1) :
    mustLetStructRun e pat [FieldPat.bare f1, FieldPat.rest] s0 =
      (Except.ok [(f1, x1)], s1) := by
  simp [mustLetStructRun, he, SumValue.ctorPath, hres, mustLetStructHit, bindFields, hf]

/-- Witness for C6: the test `Enum::Baz { a, .. } = Enum::Baz { a: 3, b: 4 }`. -/
theorem c6_rest_wildcard_binds_only_mentioned_witness :
    mustLetStructRun (pureE (SumValue.structVal ["Enum", "Baz"] [("a", RVal.vInt 3), ("b", RVal.vInt 4)]))
      ["Enum", "Baz"] [FieldPat.bare "a", FieldPat.rest] () =
      (Except.ok [("a", RVal.vInt 3)], ()) :=
  c6_rest_wildcard_binds_only_mentioned
    (pureE (SumValue.structVal ["Enum", "Baz"] [("a", RVal.vInt 3), ("b", RVal.vInt 4)]))
    ["Enum", "Baz"] ["Enum", "Baz"] [("a", RVal.vInt 3), ("b", RVal.vInt 4)] "a"
    (RVal.vInt 3) () () rfl rfl rfl

/-- C7: tuple-constructor form — `must_let!(Some(x) = Some(42))` binds `x`
to `42`; `must_let!(Some(x) = None)` aborts; the same holds under the
qualified multi-segment path `std::option::Option::Some`; and in general the
positional form binds each position to the given local name left to right
(the `zip` of the binder names with the tuple variant's fields). -/
theorem c7_tuple_constructor_form :
    mustLetTupleRun (pureE (someVal 42)) ["Some"] ["x"] () =
      (Except.ok [("x", RVal.vInt 42)], ())
    ∧ mustLetTupleRun (pureE noneVal) ["Some"] ["x"] () =
      (Except.error (mustLetMsg ["Some"] noneVal), ())
    ∧ mustLetTupleRun (pureE (someVal 42)) ["std", "option", "Option", "Some"] ["x"] () =
      (Except.ok [("x", RVal.vInt 42)], ())
    ∧ (∀ {σ : Type} (e : σ → SumValue × σ) (pat ctor : List String)
        (vals : List RVal) (names : List String) (s0 s1 : σ),
        e s0 = (SumValue.tupleVal ctor vals, s1) →
        pathResolves pat ctor = true →
        names.length = vals.length →
        mustLetTupleRun e pat names s0 = (Except.ok (names.zip vals), s1)) := by
  refine ⟨rfl, rfl, rfl, ?_⟩
  intro σ e pat ctor vals names s0 s1 he hres hlen
  simp [mustLetTupleRun, he, SumValue.ctorPath, hres, mustLetTupleHit, hlen]

/-- Witness for C7: the general positional conjunct applied to a concrete
two-field tuple variant, binding left to right. -/
theorem c7_tuple_constructor_form_witness :
    mustLetTupleRun (pureE (SumValue.tupleVal ["Pair"] [RVal.vInt 1, RVal.vInt 2]))
      ["Pair"] ["u", "w"] () =
      (Except.ok [("u", RVal.vInt 1), ("w", RVal.vInt 2)], ()) :=
  c7_tuple_constructor_form.2.2.2
    (pureE (SumValue.tupleVal ["Pair"] [RVal.vInt 1, RVal.vInt 2]))
    ["Pair"] ["Pair"] [RVal.vInt 1, RVal.vInt 2] ["u", "w"] () () rfl rfl rfl

/-- Auxiliary: a list with a bare single-ident entry cannot satisfy the
rename rule's matcher, which requires every entry to be `ident : ident`. -/
theorem all_rename_false_of_single {entries : List (List Tok)} {en : List Tok}
    (hen : en ∈ entries) (hsh : isRenameEntry en = false) :
    entries.all isRenameEntry = false := by
  cases hc : entries.all isRenameEntry
  · rfl
  · have := List.all_eq_true.mp hc _ hen
    rw [hsh] at this
    exact absurd this (by simp)

/-- Auxiliary: a list with a three-token `ident : ident` entry cannot
satisfy the matchers that consume each entry as one token tree. -/
theorem all_single_false_of_rename {entries : List (List Tok)} {f b : String}
    (hen : [Tok.ident f, Tok.colon, Tok.ident b] ∈ entries) :
    entries.all isSingleTT = false := by
  cases hc : entries.all isSingleTT
  · rfl
  · have := List.all_eq_true.mp hc _ hen
    simp [isSingleTT] at this

/-- C8: mixing bare field names and rename-form entries in one `must_let!`
invocation (e.g. `C { a: x, b } = v`) matches none of the macro's rules and
is therefore rejected at build time: the rename rule requires every entry to
be `ident : ident` and the bare rule requires every entry to be a single
token tree. -/
theorem c8_mixed_rename_rejected (path : List String) (entries : List (List Tok))
    (f b g : String)
    (hren : [Tok.ident f, Tok.colon, Tok.ident b] ∈ entries)
    (hbare : [Tok.ident g] ∈ entries) :
    mustLetDispatch (MustLetInv.braced path entries) = none := by
  have hra := all_rename_false_of_single hbare (by simp [isRenameEntry])
  have hsi := all_single_false_of_rename hren
  simp [mustLetDispatch, hra, hsi]

/-- Witness for C8: the documented non-working invocation
`must_let!(ExampleEnum::Baz { a: x, b } = value)`. -/
theorem c8_mixed_rename_rejected_witness :
    mustLetDispatch (MustLetInv.braced ["ExampleEnum", "Baz"]
      [[Tok.ident "a", Tok.colon, Tok.ident "x"], [Tok.ident "b"]]) = none :=
  c8_mixed_rename_rejected ["ExampleEnum", "Baz"]
    [[Tok.ident "a", Tok.colon, Tok.ident "x"], [Tok.ident "b"]] "a" "x" "b"
    (by simp) (by simp)

/-- C10: combining the rename form with the rest wildcard in one `must_let!`
invocation (e.g. `C { f1: x, .. } = v`) matches none of the macro's rules
and is rejected at build time, while the rest wildcard does work in the bare
struct form: an all-single-token entry list containing `..` dispatches to
the bare rule. -/
theorem c10_rename_with_rest_rejected :
    (∀ (path : List String) (entries : List (List Tok)) (f b : String),
      [Tok.ident f, Tok.colon, Tok.ident b] ∈ entries →
      [Tok.dotdot] ∈ entries →
      mustLetDispatch (MustLetInv.braced path entries) = none)
    ∧ (∀ (path : List String) (entries : List (List Tok)),
      entries ≠ [] →
      entries.all isSingleTT = true →
      [Tok.dotdot] ∈ entries →
      mustLetDispatch (MustLetInv.braced path entries) = some MustLetRule.bareRule) := by
  constructor
  · intro path entries f b hren hdd
    have hra := all_rename_false_of_single hdd (by simp [isRenameEntry])
    have hsi := all_single_false_of_rename hren
    simp [mustLetDispatch, hra, hsi]
  · intro path entries hne hall hdd
    have hra := all_rename_false_of_single hdd (by simp [isRenameEntry])
    have hemp : entries.isEmpty = false := by
      cases entries
      · exact absurd rfl hne
      · rfl
    simp [mustLetDispatch, hra, hall, hemp]

/-- Witness for C10: `C { f1: x, .. }` is rejected, while `C { a, .. }`
dispatches to the bare rule. -/
theorem c10_rename_with_rest_rejected_witness :
    mustLetDispatch (MustLetInv.braced ["C"]
      [[Tok.ident "f1", Tok.colon, Tok.ident "x"], [Tok.dotdot]]) = none
    ∧ mustLetDispatch (MustLetInv.braced ["C"]
      [[Tok.ident "a"], [Tok.dotdot]]) = some MustLetRule.bareRule :=
  ⟨c10_rename_with_rest_rejected.1 ["C"]
      [[Tok.ident "f1", Tok.colon, Tok.ident "x"], [Tok.dotdot]] "f1" "x"
      (by simp) (by simp),
   c10_rename_with_rest_rejected.2 ["C"]
      [[Tok.ident "a"], [Tok.dotdot]] (by simp) (by decide) (by simp)⟩

/-- Auxiliary: on a separator-free stream the segmentation loop emits the
accumulated group together with the whole stream as one group (or nothing if
both are empty). -/
theorem segmentAux_no_sep (seps : List Char) (ts : List GTok) :
    ∀ acc : List GTok, (∀ t ∈ ts, isSep seps t = false) →
      segmentAux seps acc ts =
        if (acc.reverse ++ ts).isEmpty then [] else [acc.reverse ++ ts] := by
  induction ts with
  | nil =>
    intro acc h
    cases acc with
    | nil => simp [segmentAux]
    | cons a as => simp [segmentAux]
  | cons t ts ih =>
    intro acc h
    have ht : isSep seps t = false := h t (List.mem_cons_self _ _)
    rw [segmentAux, ht]
    simp only [Bool.false_eq_true, if_false]
    rw [ih (t :: acc) (fun u hu => h u (List.mem_cons_of_mem _ hu))]
    have harr : (t :: acc).reverse ++ ts = acc.reverse ++ (t :: ts) := by simp
    rw [harr]

/-- Auxiliary: a final separator after a separator-free stream closes the
accumulated group and leaves no trailing empty group. -/
theorem segmentAux_trailing_sep (seps : List Char) (c : GTok)
    (hc : isSep seps c = true) (ts : List GTok) :
    ∀ acc : List GTok, (∀ t ∈ ts, isSep seps t = false) →
      segmentAux seps acc (ts ++ [c]) = [acc.reverse ++ ts] := by
  induction ts with
  | nil =>
    intro acc h
    simp [segmentAux, hc]
  | cons t ts ih =>
    intro acc h
    have ht : isSep seps t = false := h t (List.mem_cons_self _ _)
    rw [List.cons_append, segmentAux, ht]
    simp only [Bool.false_eq_true, if_false]
    rw [ih (t :: acc) (fun u hu => h u (List.mem_cons_of_mem _ hu))]
    simp

/-- C9: segmenting the token stream `a, B::C, d` on the separator set
`{',', '.'}` yields exactly the three groups `[a]`, `[B::C]`, `[d]`,
preserving the `::` punctuation that is not itself a separator; in general a
non-empty trailing group with no following separator is still emitted, and
an empty trailing remainder after a final separator is dropped rather than
emitted as an empty group. -/
theorem c9_token_segmentation :
    segmentTokens [',', '.']
        [GTok.ident "a", GTok.punct ',', GTok.ident "B", GTok.punct ':',
         GTok.punct ':', GTok.ident "C", GTok.punct ',', GTok.ident "d"]
      = [[GTok.ident "a"],
         [GTok.ident "B", GTok.punct ':', GTok.punct ':', GTok.ident "C"],
         [GTok.ident "d"]]
    ∧ (∀ (seps : List Char) (ts : List GTok), ts ≠ [] →
        (∀ t ∈ ts, isSep seps t = false) →
        segmentTokens seps ts = [ts])
    ∧ (∀ (seps : List Char) (ts : List GTok) (c : GTok), ts ≠ [] →
        (∀ t ∈ ts, isSep seps t = false) → isSep seps c = true →
        segmentTokens seps (ts ++ [c]) = [ts]) := by
  refine ⟨rfl, ?_, ?_⟩
  · intro seps ts hne h
    rw [segmentTokens, segmentAux_no_sep seps ts [] h]
    simp [hne]
  · intro seps ts c hne h hc
    rw [segmentTokens, segmentAux_trailing_sep seps c hc ts [] h]
    simp

/-- Witness for C9: a separator-free two-token stream is emitted as one
group, with and without a trailing separator. -/
theorem c9_token_segmentation_witness :
    segmentTokens [',', '.'] [GTok.ident "x", GTok.ident "y"]
      = [[GTok.ident "x", GTok.ident "y"]]
    ∧ segmentTokens [',', '.'] [GTok.ident "x", GTok.ident "y", GTok.punct ',']
      = [[GTok.ident "x", GTok.ident "y"]] :=
  ⟨c9_token_segmentation.2.1 [',', '.'] [GTok.ident "x", GTok.ident "y"]
      (by simp)
      (by
        intro t ht
        simp only [List.mem_cons, List.not_mem_nil, or_false] at ht
        rcases ht with rfl | rfl <;> rfl),
   c9_token_segmentation.2.2 [',', '.'] [GTok.ident "x", GTok.ident "y"] (GTok.punct ',')
      (by simp)
      (by
        intro t ht
        simp only [List.mem_cons, List.not_mem_nil, or_false] at ht
        rcases ht with rfl | rfl <;> rfl)
      rfl⟩
